import Mathlib

/-!
Verification of the vncdisplay RFB server against its design specification.

The Rust sources (src/rfp.rs, src/screen.rs, src/main.rs) are shallowly
embedded below: machine integers (u8/u16/u32) are modelled as `Nat` with
explicit `% 2 ^ w` truncation at the points where the Rust code truncates,
fallible functions (`anyhow::Result`) are modelled with `Except String`,
and byte streams are `List Nat` (each element a byte value).
-/

/-- An RGB8 pixel, as `image::Rgb<u8>` used throughout src/rfp.rs. -/
structure Rgb where
  r : Nat
  g : Nat
  b : Nat
  deriving DecidableEq

/-- RFC6143 §7.4 pixel format, from `struct PixelFormat` (src/rfp.rs lines 27-39).
The u8/u16 fields are modelled as `Nat`; `PixelFormat.WF` states the bounds
that the Rust field types impose. -/
structure PixelFormat where
  bits_per_pixel : Nat
  depth : Nat
  big_endian_flag : Bool
  true_color_flag : Bool
  red_max : Nat
  green_max : Nat
  blue_max : Nat
  red_shift : Nat
  green_shift : Nat
  blue_shift : Nat
  deriving DecidableEq

/-- Field bounds implied by the Rust field types (u8 / u16). -/
def PixelFormat.WF (f : PixelFormat) : Prop :=
  f.bits_per_pixel < 256 ∧ f.depth < 256 ∧
  f.red_max < 65536 ∧ f.green_max < 65536 ∧ f.blue_max < 65536 ∧
  f.red_shift < 256 ∧ f.green_shift < 256 ∧ f.blue_shift < 256

/-- The validation performed by `PixelFormat::read_from` (src/rfp.rs lines 76-82). -/
def PixelFormat.accepted (f : PixelFormat) : Prop :=
  (f.bits_per_pixel = 8 ∨ f.bits_per_pixel = 16 ∨ f.bits_per_pixel = 32) ∧
  f.depth ≤ f.bits_per_pixel

/-- `PIXEL_FOMRAT_RGB888` (src/rfp.rs lines 41-52); also `Default for PixelFormat`. -/
def PIXEL_FOMRAT_RGB888 : PixelFormat :=
  { bits_per_pixel := 32
    depth := 24
    big_endian_flag := false
    true_color_flag := true
    red_max := 0xff
    green_max := 0xff
    blue_max := 0xff
    red_shift := 16
    green_shift := 8
    blue_shift := 0 }

/-- Byte written for a bool field (`bool::into` u8). -/
def boolByte (b : Bool) : Nat :=
  if b then 1 else 0

/-- `PixelFormat::encode` (src/rfp.rs lines 427-446): the 16-byte wire form,
multi-byte maxima big-endian, 3 trailing padding bytes left at zero. -/
def PixelFormat.encode (f : PixelFormat) : List Nat :=
  [f.bits_per_pixel, f.depth, boolByte f.big_endian_flag, boolByte f.true_color_flag,
   f.red_max / 256 % 256, f.red_max % 256,
   f.green_max / 256 % 256, f.green_max % 256,
   f.blue_max / 256 % 256, f.blue_max % 256,
   f.red_shift, f.green_shift, f.blue_shift,
   0, 0, 0]

/-- `PixelFormat::read_from` (src/rfp.rs lines 61-84): reads 13 bytes
(flags decoded as `byte > 0`, maxima big-endian u16), then validates
`bits_per_pixel ∈ {8,16,32}` and `depth ≤ bits_per_pixel`. -/
def PixelFormat.read_from (bytes : List Nat) : Except String PixelFormat :=
  match bytes with
  | b0 :: b1 :: b2 :: b3 :: m0 :: m1 :: m2 :: m3 :: m4 :: m5 :: s0 :: s1 :: s2 :: _ =>
    let f : PixelFormat :=
      { bits_per_pixel := b0
        depth := b1
        big_endian_flag := decide (0 < b2)
        true_color_flag := decide (0 < b3)
        red_max := m0 * 256 + m1
        green_max := m2 * 256 + m3
        blue_max := m4 * 256 + m5
        red_shift := s0
        green_shift := s1
        blue_shift := s2 }
    if b0 = 8 ∨ b0 = 16 ∨ b0 = 32 then
      if f.depth > f.bits_per_pixel then Except.error "depth exceeds bits_per_pixel"
      else Except.ok f
    else Except.error "bits-per-pixel must be 8, 16, or 32"
  | _ => Except.error "unexpected end of input"

/-- One channel's contribution in `encode_pixels` (src/rfp.rs line 137):
`(channel * max / 0xff) << shift` computed in u32. A Rust u32 shift by
`shift >= 32` is an arithmetic overflow: release builds mask the shift
amount mod 32 (modelled here by `shift % 32`), while debug builds abort,
a crash path outside this model — theorems about `encode_pixels`
therefore additionally restrict to shifts below 32, where the two build
modes agree and no masking occurs. -/
def channelBits (channel mx shift : Nat) : Nat :=
  (channel * mx / 255) * 2 ^ (shift % 32) % 2 ^ 32

/-- The per-pixel u32 value accumulated with `|=` in `encode_pixels`
(src/rfp.rs lines 135-138). -/
def PixelFormat.pixelValue (f : PixelFormat) (p : Rgb) : Nat :=
  channelBits p.r f.red_max f.red_shift |||
  channelBits p.g f.green_max f.green_shift |||
  channelBits p.b f.blue_max f.blue_shift

/-- The `match self.bits_per_pixel` write step of `encode_pixels`
(src/rfp.rs lines 139-146): `as u8` / `as u16` truncation then byte
emission in the configured endianness. -/
def writePixelBytes (f : PixelFormat) (v : Nat) : Except String (List Nat) :=
  if f.bits_per_pixel = 8 then Except.ok [v % 256]
  else if f.bits_per_pixel = 16 then
    if f.big_endian_flag then Except.ok [v % 2 ^ 16 / 2 ^ 8 % 256, v % 2 ^ 16 % 256]
    else Except.ok [v % 2 ^ 16 % 256, v % 2 ^ 16 / 2 ^ 8 % 256]
  else if f.bits_per_pixel = 32 then
    if f.big_endian_flag then
      Except.ok [v / 2 ^ 24 % 256, v / 2 ^ 16 % 256, v / 2 ^ 8 % 256, v % 256]
    else
      Except.ok [v % 256, v / 2 ^ 8 % 256, v / 2 ^ 16 % 256, v / 2 ^ 24 % 256]
  else Except.error "bits_per_pixel must be 8, 16, or 32"

/-- The pixel loop of `encode_pixels` (src/rfp.rs lines 134-147). -/
def encodePixelsLoop (f : PixelFormat) : List Rgb → Except String (List Nat)
  | [] => Except.ok []
  | p :: rest =>
    match writePixelBytes f (f.pixelValue p) with
    | Except.error e => Except.error e
    | Except.ok bytes =>
      match encodePixelsLoop f rest with
      | Except.error e => Except.error e
      | Except.ok restBytes => Except.ok (bytes ++ restBytes)

/-- `PixelFormat::encode_pixels` (src/rfp.rs lines 120-149): bails with
"true color only" before the loop when `true_color_flag` is unset. -/
def PixelFormat.encode_pixels (f : PixelFormat) (pixels : List Rgb) :
    Except String (List Nat) :=
  if !f.true_color_flag then Except.error "Unimplemented: true color only"
  else encodePixelsLoop f pixels

/-- `PixelFormat::encode_compressed_pixels` (src/rfp.rs lines 90-118):
falls back to `encode_pixels` unless `true_colour ∧ bpp == 32 ∧ depth ≤ 24`;
in the CPIXEL branch bails unless `depth == 24`, else writes 3 bytes per
pixel, (r,g,b) if big-endian and (b,g,r) otherwise. -/
def PixelFormat.encode_compressed_pixels (f : PixelFormat) (pixels : List Rgb) :
    Except String (List Nat) :=
  if !f.true_color_flag || f.bits_per_pixel != 32 || decide (24 < f.depth) then
    f.encode_pixels pixels
  else if f.depth != 24 then
    Except.error "Unimplemented: color depth within (16, 24)"
  else
    Except.ok (pixels.flatMap fun p =>
      if f.big_endian_flag then [p.r, p.g, p.b] else [p.b, p.g, p.r])

/-- RFC6143 §8.4 encoding types, `enum Encoding` (src/rfp.rs lines 168-174). -/
inductive Encoding where
  | Raw : Encoding
  | Zrle : Encoding
  | Cursor : Encoding
  | Other : Int → Encoding
  deriving DecidableEq

/-- `impl From<i32> for Encoding` (src/rfp.rs lines 176-185). -/
def Encoding.decode (value : Int) : Encoding :=
  if value = 0 then Encoding.Raw
  else if value = 16 then Encoding.Zrle
  else if value = -239 then Encoding.Cursor
  else Encoding.Other value

/-- `impl From<Encoding> for i32` (src/rfp.rs lines 187-196). -/
def Encoding.encode : Encoding → Int
  | Encoding.Raw => 0
  | Encoding.Zrle => 16
  | Encoding.Cursor => -239
  | Encoding.Other value => value

/-- Rust `u32::clamp(self, min, max)` on Nat. -/
def rustClamp (v lo hi : Nat) : Nat :=
  if v < lo then lo else if hi < v then hi else v

/-- Row-major pixels of `self.background.view(x, y, w, h)` as iterated by
`tile.pixels()` (src/screen.rs lines 135-136); the background image is
modelled as a total pixel function. -/
def tilePixels (bg : Nat → Nat → Rgb) (x y w h : Nat) : List Rgb :=
  (List.range h).flatMap fun j => (List.range w).map fun i => bg (x + i) (y + j)

/-- The row-major tile origins produced by the nested `tile_y` / `tile_x`
loops of `draw_zrle` (src/screen.rs lines 126-129), with
`ZRLE_TILE_SIZE = 64`. -/
def tileOrder (W H : Nat) : List (Nat × Nat) :=
  (List.range ((H + 63) / 64)).flatMap fun ty =>
    (List.range ((W + 63) / 64)).map fun tx => (tx * 64, ty * 64)

/-- The body of the tile loops of `draw_zrle` (src/screen.rs lines 126-140):
for each tile origin, one subencoding byte 0 then the clipped tile's pixels
through `encode_compressed_pixels`, all concatenated in loop order. -/
def encodeTiles (f : PixelFormat) (bg : Nat → Nat → Rgb) (W H : Nat) :
    List (Nat × Nat) → Except String (List Nat)
  | [] => Except.ok []
  | t :: rest =>
    match f.encode_compressed_pixels
        (tilePixels bg t.1 t.2 (rustClamp 64 0 (W - t.1)) (rustClamp 64 0 (H - t.2))) with
    | Except.error e => Except.error e
    | Except.ok px =>
      match encodeTiles f bg W H rest with
      | Except.error e => Except.error e
      | Except.ok restBytes => Except.ok ((0 :: px) ++ restBytes)

/-- `Screen::draw_zrle` (src/screen.rs lines 119-145), modelled as the byte
sequence pushed into the per-connection zlib encoder (the zlib compression
and flush themselves are outside the model). -/
def Screen.draw_zrle (f : PixelFormat) (bg : Nat → Nat → Rgb) (W H : Nat) :
    Except String (List Nat) :=
  encodeTiles f bg W H (tileOrder W H)

/-- The inner pixel loop of the cursor bitmask construction
(src/screen.rs lines 57-64): `mask` is a u8 accumulator,
`mask = (mask << 1) | (alpha > 0x80)`, pushed and reset whenever
`i % 8 == 7`. -/
def rowMaskLoop (mask : Nat) (acc : List Nat) (i : Nat) :
    List Nat → Nat × List Nat
  | [] => (mask, acc)
  | a :: rest =>
    let mask2 := (mask * 2 % 256) ||| (if 0x80 < a then 1 else 0)
    if i % 8 = 7 then rowMaskLoop 0 (acc ++ [mask2]) (i + 1) rest
    else rowMaskLoop mask2 acc (i + 1) rest

/-- One row of the bitmask (src/screen.rs lines 56-68): after the pixel
loop, the (unshifted) residual mask is pushed when `width % 8 > 0`. -/
def rowBitmask (alphas : List Nat) : List Nat :=
  let st := rowMaskLoop 0 [] 0 alphas
  if alphas.length % 8 > 0 then st.2 ++ [st.1] else st.2

/-- The full transparency bitmask built in `Screen::create`
(src/screen.rs lines 53-68) for a w×h sprite whose alpha channel is
`alpha x y`. -/
def pointerBitmask (w h : Nat) (alpha : Nat → Nat → Nat) : List Nat :=
  ((List.range h).map fun y =>
    rowBitmask ((List.range w).map fun x => alpha x y)).flatten

/-- `enum RfpVersion` (src/rfp.rs lines 20-24). -/
inductive RfpVersion where
  | V3_3 : RfpVersion
  | V3_7 : RfpVersion
  | V3_8 : RfpVersion
  deriving DecidableEq

def SECURITY_TYPE_NO_AUTHENTICATION : Nat := 1

def SECURITY_RESULT_OK : Nat := 0

def SECURITY_RESULT_FAILED : Nat := 1

def ERROR_REASON_SECURITY_TYPE_UNSUPPORTED : String := "Unsupported security type"

/-- UTF-8 bytes of an ASCII string (all strings used here are ASCII). -/
def strBytes (s : String) : List Nat :=
  s.data.map Char.toNat

/-- Big-endian u32 bytes, as written by tokio `write_u32`. -/
def u32be (v : Nat) : List Nat :=
  [v / 2 ^ 24 % 256, v / 2 ^ 16 % 256, v / 2 ^ 8 % 256, v % 256]

/-- The SecurityResult step of `handshake` (src/rfp.rs lines 288-314):
the `match version` after the security type has been negotiated. Returns
the bytes written in this step and whether the handshake continues
(`false` exactly when the code bails). -/
def securityResultStep (version : RfpVersion) (secuirty_type : Nat) :
    List Nat × Bool :=
  if version = RfpVersion.V3_3 then ([], true)
  else if version = RfpVersion.V3_7 ∧ secuirty_type = SECURITY_TYPE_NO_AUTHENTICATION then
    ([], true)
  else if version = RfpVersion.V3_8 ∧ secuirty_type = SECURITY_TYPE_NO_AUTHENTICATION then
    (u32be SECURITY_RESULT_OK, true)
  else if version = RfpVersion.V3_8 then
    (u32be SECURITY_RESULT_FAILED ++
      u32be (strBytes ERROR_REASON_SECURITY_TYPE_UNSUPPORTED).length ++
      strBytes ERROR_REASON_SECURITY_TYPE_UNSUPPORTED, false)
  else (u32be SECURITY_RESULT_FAILED, true)

/-- `Screen::set_pixel_format` (src/screen.rs lines 86-92): given the
stored format and the requested one, returns the new stored format and
the call's result; the bail happens before the assignment, so on error
the stored format is unchanged. -/
def Screen.set_pixel_format (st f : PixelFormat) : PixelFormat × Except String Unit :=
  if !f.true_color_flag then (st, Except.error "no true color")
  else (f, Except.ok ())

/-- Abstract model of a `flate2::write::ZlibEncoder`: only the accumulated
zlib stream state matters for the claims, counted abstractly (0 for a
freshly constructed encoder, as `ZlibEncoder::new`). -/
structure ZEnc where
  framesWritten : Nat
  deriving DecidableEq

/-- `ClientMessage` (src/rfp.rs lines 154-165); positions and sizes are
pairs of u16 values. -/
inductive ClientMessage where
  | SetPixelFormat : PixelFormat → ClientMessage
  | SetEncodings : List Encoding → ClientMessage
  | FramebufferUpdateRequest : Bool → Nat × Nat → Nat × Nat → ClientMessage
  | KeyEvent : ClientMessage
  | PointerEvent : ClientMessage
  | ClientCutText : ClientMessage
  deriving DecidableEq

/-- The per-connection mutable state of `handle_client`
(src/main.rs lines 46-57): the screen's negotiated format, the optional
zlib encoder, and the cursor support flag. -/
structure ConnState where
  format : PixelFormat
  zlib : Option ZEnc
  pointer_supported : Bool
  deriving DecidableEq

/-- One iteration of the `handle_client` message loop
(src/main.rs lines 58-96), returning the updated connection state and the
bytes written to the socket. Rendering a non-incremental update (lines
81-91) involves the zlib compressor and the socket framing, which are
abstracted as the `render` parameter; every other branch is translated
directly. -/
def handleMessage (render : ConnState → Except String (ConnState × List Nat))
    (st : ConnState) : ClientMessage → Except String (ConnState × List Nat)
  | ClientMessage.SetPixelFormat f =>
    match Screen.set_pixel_format st.format f with
    | (_, Except.error e) => Except.error e
    | (fmt2, Except.ok _) => Except.ok ({ st with format := fmt2 }, [])
  | ClientMessage.SetEncodings encodings =>
    Except.ok
      ({ st with
          zlib := if encodings.contains Encoding.Zrle then some (ZEnc.mk 0) else st.zlib
          pointer_supported :=
            if encodings.contains Encoding.Cursor then true else st.pointer_supported },
        [])
  | ClientMessage.FramebufferUpdateRequest incremental _ _ =>
    if incremental then Except.ok (st, []) else render st
  | ClientMessage.KeyEvent => Except.ok (st, [])
  | ClientMessage.PointerEvent => Except.ok (st, [])
  | ClientMessage.ClientCutText => Except.ok (st, [])

/-- A 32-bit true-colour format with depth 16: eligible for the CPIXEL
branch of `encode_compressed_pixels` but with depth below 24. -/
def fmtDepth16 : PixelFormat :=
  { PIXEL_FOMRAT_RGB888 with depth := 16 }

/-- A parser-accepted true-colour format whose three channels share
shift 0, so their bit ranges overlap. -/
def fmtOverlap : PixelFormat :=
  { bits_per_pixel := 8
    depth := 8
    big_endian_flag := false
    true_color_flag := true
    red_max := 255
    green_max := 255
    blue_max := 255
    red_shift := 0
    green_shift := 0
    blue_shift := 0 }

/-- Modelled from the spec (claim C4's wording): the per-pixel value as
the SUM of the three shifted channel contributions, to compare with the
bitwise-OR accumulation the code performs. -/
def pixelValueSpecSum (f : PixelFormat) (p : Rgb) : Nat :=
  (channelBits p.r f.red_max f.red_shift +
   channelBits p.g f.green_max f.green_shift +
   channelBits p.b f.blue_max f.blue_shift) % 2 ^ 32

/-- `PIXEL_FOMRAT_RGB888` with the true-colour flag cleared. -/
def fmtNoTrueColor : PixelFormat :=
  { PIXEL_FOMRAT_RGB888 with true_color_flag := false }

/-! ## Helper lemmas -/

theorem flatMap_three_length (ps : List Rgb) (g : Rgb → List Nat)
    (hg : ∀ p, (g p).length = 3) : (ps.flatMap g).length = 3 * ps.length := by
  induction ps with
  | nil => simp
  | cons p ps ih => simp [List.flatMap_cons, hg, ih]; omega

/-! ## Claims -/

/-- Claim C2: the claim states that in a partial final byte of a bitmask
row pixel i sets bit 7-(i mod 8) with the unused low-order bits zero; the
code accumulates the mask from the low end and pushes it unshifted, so for
a 3-pixel row with only pixel 0 opaque it emits 0x04 (bit 2 set, high bits
zero) instead of the claimed 0x80. -/
theorem c2_bitmask_partial_byte_bug :
    pointerBitmask 3 1 (fun x _ => if x = 0 then 255 else 0) = [4] ∧
    Nat.testBit 4 7 = false ∧ Nat.testBit 4 2 = true ∧ (4 : Nat) ≠ 128 := by
  refine ⟨by decide, by decide, by decide, by decide⟩

/-- Claim C3 (counterexample): with 32-bit true colour and depth 16 —
eligible for CPIXEL and outside the open interval (16, 24) where the
claim locates the failure — `encode_compressed_pixels` nevertheless
fails. -/
theorem c3_counterexample :
    PixelFormat.encode_compressed_pixels fmtDepth16 [] =
      Except.error "Unimplemented: color depth within (16, 24)" ∧
    fmtDepth16.depth = 16 ∧ ¬(16 < fmtDepth16.depth ∧ fmtDepth16.depth < 24) :=
  ⟨rfl, rfl, by decide⟩

/-- Claim C3 (amended): when `true_colour ∧ bpp = 32 ∧ depth = 24`,
`encode_compressed_pixels` emits exactly 3 bytes per pixel, (R,G,B) when
big-endian and (B,G,R) otherwise; when `true_colour ∧ bpp = 32 ∧
depth < 24` it fails (thus for every depth below 24, not only those in
(16, 24)); and for every ineligible format it returns exactly what
`encode_pixels` returns. -/
theorem c3_amended :
    (∀ (f : PixelFormat) (ps : List Rgb),
      f.true_color_flag = true → f.bits_per_pixel = 32 → f.depth = 24 →
        f.encode_compressed_pixels ps =
          Except.ok (ps.flatMap fun p =>
            if f.big_endian_flag then [p.r, p.g, p.b] else [p.b, p.g, p.r]) ∧
        (ps.flatMap fun p =>
            if f.big_endian_flag then [p.r, p.g, p.b] else [p.b, p.g, p.r]).length =
          3 * ps.length) ∧
    (∀ (f : PixelFormat) (ps : List Rgb),
      f.true_color_flag = true → f.bits_per_pixel = 32 → f.depth < 24 →
        f.encode_compressed_pixels ps =
          Except.error "Unimplemented: color depth within (16, 24)") ∧
    (∀ (f : PixelFormat) (ps : List Rgb),
      ¬(f.true_color_flag = true ∧ f.bits_per_pixel = 32 ∧ f.depth ≤ 24) →
        f.encode_compressed_pixels ps = f.encode_pixels ps) := by
  refine ⟨?_, ?_, ?_⟩
  · intro f ps htc hbpp hd
    refine ⟨by simp [PixelFormat.encode_compressed_pixels, htc, hbpp, hd], ?_⟩
    exact flatMap_three_length ps _ fun p => by cases f.big_endian_flag <;> simp
  · intro f ps htc hbpp hd
    have h1 : ¬(24 < f.depth) := by omega
    have h2 : f.depth ≠ 24 := by omega
    simp [PixelFormat.encode_compressed_pixels, htc, hbpp, h1, h2]
  · intro f ps hne
    have hcond : (!f.true_color_flag || f.bits_per_pixel != 32 ||
        decide (24 < f.depth)) = true := by
      by_cases h1 : f.true_color_flag = true
      · by_cases h2 : f.bits_per_pixel = 32
        · by_cases h3 : f.depth ≤ 24
          · exact absurd ⟨h1, h2, h3⟩ hne
          · simp [h1, h2]; omega
        · simp [h2]
      · simp [Bool.not_eq_true] at h1
        simp [h1]
    simp [PixelFormat.encode_compressed_pixels, hcond]

/-- Claim C3 (witness): the amended theorem instantiated at the default
RGB888 format (depth 24) and at the overlapping-shift 8-bit format
(ineligible, bpp 8). -/
theorem c3_witness :
    PixelFormat.encode_compressed_pixels PIXEL_FOMRAT_RGB888 [⟨1, 2, 3⟩] =
      Except.ok [3, 2, 1] ∧
    PixelFormat.encode_compressed_pixels fmtOverlap [⟨1, 2, 3⟩] =
      PixelFormat.encode_pixels fmtOverlap [⟨1, 2, 3⟩] := by
  constructor
  · have h := (c3_amended.1 PIXEL_FOMRAT_RGB888 [⟨1, 2, 3⟩] rfl rfl rfl).1
    rw [h]; rfl
  · exact c3_amended.2.2 fmtOverlap [⟨1, 2, 3⟩] (by decide)

/-- Claim C5 (counterexample): the claim quantifies the decode-encode
round trip over every `Other(n)` value, but `Other 0` encodes to the wire
code 0, which decodes to `Raw`. -/
theorem c5_counterexample :
    Encoding.decode (Encoding.encode (Encoding.Other 0)) = Encoding.Raw ∧
    Encoding.decode (Encoding.encode (Encoding.Other 0)) ≠ Encoding.Other 0 := by
  refine ⟨by decide, by decide⟩

/-- Claim C5 (amended): `encode (decode c) = c` for every integer code,
the named variants map to 0, 16, -239, and `decode (encode x) = x` for
the named variants and for every `Other n` whose code n is not one of the
three named codes (the only `Other` values `decode` ever produces). -/
theorem c5_amended :
    (∀ c : Int, Encoding.encode (Encoding.decode c) = c) ∧
    Encoding.encode Encoding.Raw = 0 ∧
    Encoding.encode Encoding.Zrle = 16 ∧
    Encoding.encode Encoding.Cursor = -239 ∧
    Encoding.decode (Encoding.encode Encoding.Raw) = Encoding.Raw ∧
    Encoding.decode (Encoding.encode Encoding.Zrle) = Encoding.Zrle ∧
    Encoding.decode (Encoding.encode Encoding.Cursor) = Encoding.Cursor ∧
    (∀ n : Int, n ≠ 0 → n ≠ 16 → n ≠ -239 →
      Encoding.decode (Encoding.encode (Encoding.Other n)) = Encoding.Other n) := by
  refine ⟨?_, rfl, rfl, rfl, by decide, by decide, by decide, ?_⟩
  · intro c
    unfold Encoding.decode
    split_ifs with h1 h2 h3
    · simp [Encoding.encode, h1]
    · simp [Encoding.encode, h2]
    · simp [Encoding.encode, h3]
    · rfl
  · intro n h0 h16 h239
    simp [Encoding.encode, Encoding.decode, h0, h16, h239]

/-- Claim C5 (witness): the amended round trip at concrete codes. -/
theorem c5_witness :
    Encoding.encode (Encoding.decode 7) = 7 ∧
    Encoding.decode (Encoding.encode (Encoding.Other 7)) = Encoding.Other 7 :=
  ⟨c5_amended.1 7,
   c5_amended.2.2.2.2.2.2.2 7 (by decide) (by decide) (by decide)⟩

/-- Claim C7 (counterexample): with negotiated version 3.7 and chosen
security type 2, the claim says the server closes writing no further
bytes; the code writes the 4-byte FAILED SecurityResult word and then
continues the handshake. -/
theorem c7_counterexample :
    securityResultStep RfpVersion.V3_7 2 = ([0, 0, 0, 1], true) ∧
    ([0, 0, 0, 1] : List Nat) ≠ [] := by
  refine ⟨by decide, by decide⟩

/-- Claim C7 (amended): when the version is 3.7 and the chosen type is
not 1, the server writes u32be(1) (FAILED) and continues the handshake
without failing; when the version is 3.8 and the chosen type is not 1,
it writes u32be(1), u32be(25) and the UTF-8 reason
"Unsupported security type", then fails the handshake. -/
theorem c7_amended (s : Nat) (hs : s ≠ 1) :
    securityResultStep RfpVersion.V3_7 s = ([0, 0, 0, 1], true) ∧
    securityResultStep RfpVersion.V3_8 s =
      ([0, 0, 0, 1] ++ [0, 0, 0, 25] ++
        strBytes ERROR_REASON_SECURITY_TYPE_UNSUPPORTED, false) := by
  have hlen : (strBytes ERROR_REASON_SECURITY_TYPE_UNSUPPORTED).length = 25 := by decide
  constructor
  · simp [securityResultStep, SECURITY_TYPE_NO_AUTHENTICATION, SECURITY_RESULT_FAILED,
      u32be, hs]
  · simp [securityResultStep, SECURITY_TYPE_NO_AUTHENTICATION, SECURITY_RESULT_FAILED,
      u32be, hs, hlen]

/-- Claim C7 (witness): the amended statement at the concrete chosen
security type 2. -/
theorem c7_witness :
    securityResultStep RfpVersion.V3_7 2 = ([0, 0, 0, 1], true) ∧
    securityResultStep RfpVersion.V3_8 2 =
      ([0, 0, 0, 1] ++ [0, 0, 0, 25] ++
        strBytes ERROR_REASON_SECURITY_TYPE_UNSUPPORTED, false) :=
  c7_amended 2 (by decide)

/-- Claim C8: the claim says the zlib encoder is created at most once and
a later SetEncodings containing ZRLE leaves the existing encoder (and its
accumulated stream state) unchanged; the code reallocates a fresh encoder
on every SetEncodings that contains ZRLE, discarding the accumulated
state (here: an encoder with 5 frames of state is replaced by a fresh
one). -/
theorem c8_zlib_reset_on_set_encodings :
    handleMessage (fun st => Except.ok (st, []))
        ⟨PIXEL_FOMRAT_RGB888, some (ZEnc.mk 5), false⟩
        (ClientMessage.SetEncodings [Encoding.Zrle]) =
      Except.ok (⟨PIXEL_FOMRAT_RGB888, some (ZEnc.mk 0), false⟩, []) ∧
    ZEnc.mk 5 ≠ ZEnc.mk 0 := by
  refine ⟨rfl, by decide⟩

/-- Claim C9: a FramebufferUpdateRequest with the incremental flag set
writes no bytes and leaves the whole per-connection state (pixel format,
zlib encoder, cursor support flag) unchanged, for every rendering
function and every state. -/
theorem c9_incremental_request_is_noop
    (render : ConnState → Except String (ConnState × List Nat))
    (st : ConnState) (position size : Nat × Nat) :
    handleMessage render st (ClientMessage.FramebufferUpdateRequest true position size) =
      Except.ok (st, []) := rfl

/-- Claim C10: the stored pixel format is always true-colour: the default
RGB888 format is, `set_pixel_format` keeps the stored format true-colour,
rejects any non-true-colour format leaving the stored format unchanged,
and installs any true-colour format. -/
theorem c10_true_color_invariant (st f : PixelFormat)
    (hst : st.true_color_flag = true) :
    PIXEL_FOMRAT_RGB888.true_color_flag = true ∧
    (Screen.set_pixel_format st f).1.true_color_flag = true ∧
    (f.true_color_flag = false →
      Screen.set_pixel_format st f = (st, Except.error "no true color")) ∧
    (f.true_color_flag = true →
      Screen.set_pixel_format st f = (f, Except.ok ())) := by
  refine ⟨rfl, ?_, ?_, ?_⟩ <;>
    cases htc : f.true_color_flag <;>
      simp [Screen.set_pixel_format, htc, hst]

/-- Claim C10 (witness): the invariant theorem applied to the default
format and a concrete non-true-colour format. -/
theorem c10_witness :
    (Screen.set_pixel_format PIXEL_FOMRAT_RGB888 fmtNoTrueColor).1.true_color_flag = true ∧
    Screen.set_pixel_format PIXEL_FOMRAT_RGB888 fmtNoTrueColor =
      (PIXEL_FOMRAT_RGB888, Except.error "no true color") :=
  ⟨(c10_true_color_invariant PIXEL_FOMRAT_RGB888 fmtNoTrueColor rfl).2.1,
   (c10_true_color_invariant PIXEL_FOMRAT_RGB888 fmtNoTrueColor rfl).2.2.1 rfl⟩

/-- Claim C6: every parser-accepted pixel format round-trips through its
16-byte serialization, whose 3 trailing padding bytes are zero; parsing
any 13-byte-or-longer input rejects exactly the combinations with
`bpp ∉ {8,16,32}` or `depth > bpp`. -/
theorem c6_pixel_format_roundtrip (f : PixelFormat) (hwf : f.WF)
    (hacc : f.accepted) :
    PixelFormat.read_from f.encode = Except.ok f ∧
    f.encode.length = 16 ∧
    f.encode.drop 13 = [0, 0, 0] ∧
    (∀ (b0 b1 b2 b3 m0 m1 m2 m3 m4 m5 s0 s1 s2 : Nat) (rest : List Nat),
      ¬((b0 = 8 ∨ b0 = 16 ∨ b0 = 32) ∧ b1 ≤ b0) →
      ∃ e, PixelFormat.read_from
          (b0 :: b1 :: b2 :: b3 :: m0 :: m1 :: m2 :: m3 :: m4 :: m5 ::
            s0 :: s1 :: s2 :: rest) = Except.error e) := by
  refine ⟨?_, rfl, rfl, ?_⟩
  · obtain ⟨bpp, dep, be, tc, rm, gm, bm, rs, gs, bs⟩ := f
    simp only [PixelFormat.WF] at hwf
    simp only [PixelFormat.accepted] at hacc
    obtain ⟨hb, hd⟩ := hacc
    simp only [PixelFormat.encode, PixelFormat.read_from]
    rw [if_pos hb, if_neg (by simp at hd ⊢; omega)]
    cases be <;> cases tc <;> simp [boolByte] <;> omega
  · intro b0 b1 b2 b3 m0 m1 m2 m3 m4 m5 s0 s1 s2 rest hne
    simp only [PixelFormat.read_from]
    by_cases hbb : b0 = 8 ∨ b0 = 16 ∨ b0 = 32
    · rw [if_pos hbb, if_pos (by simp; omega)]
      exact ⟨_, rfl⟩
    · rw [if_neg hbb]
      exact ⟨_, rfl⟩

/-- Claim C6 (witness): the round trip at the default RGB888 format and
the rejection at a 13-byte input with bpp 9. -/
theorem c6_witness :
    PixelFormat.read_from PIXEL_FOMRAT_RGB888.encode = Except.ok PIXEL_FOMRAT_RGB888 ∧
    PIXEL_FOMRAT_RGB888.encode.drop 13 = [0, 0, 0] ∧
    (∃ e, PixelFormat.read_from [9, 0, 0, 0, 0, 0, 0, 0, 0, 0, 0, 0, 0] =
      Except.error e) := by
  have h := c6_pixel_format_roundtrip PIXEL_FOMRAT_RGB888
    ⟨by decide, by decide, by decide, by decide, by decide, by decide, by decide, by decide⟩
    ⟨Or.inr (Or.inr rfl), by decide⟩
  exact ⟨h.1, h.2.2.1, h.2.2.2 9 0 0 0 0 0 0 0 0 0 0 0 0 [] (by omega)⟩

theorem channelBits_lt (channel mx shift : Nat) :
    channelBits channel mx shift < 2 ^ 32 :=
  Nat.mod_lt _ (by norm_num)

theorem pixelValue_lt (f : PixelFormat) (p : Rgb) : f.pixelValue p < 2 ^ 32 :=
  Nat.or_lt_two_pow
    (Nat.or_lt_two_pow (channelBits_lt ..) (channelBits_lt ..))
    (channelBits_lt ..)

theorem writePixelBytes_eq (f : PixelFormat) (v : Nat)
    (hbpp : f.bits_per_pixel = 8 ∨ f.bits_per_pixel = 16 ∨ f.bits_per_pixel = 32) :
    writePixelBytes f v =
      Except.ok ((List.range (f.bits_per_pixel / 8)).map fun j =>
        v / 256 ^ (if f.big_endian_flag then f.bits_per_pixel / 8 - 1 - j else j) % 256) := by
  have hr1 : List.range 1 = [0] := rfl
  have hr2 : List.range 2 = [0, 1] := rfl
  have hr4 : List.range 4 = [0, 1, 2, 3] := rfl
  rcases hbpp with h | h | h <;>
    cases hbe : f.big_endian_flag <;>
      simp only [writePixelBytes, h, hbe, if_true, if_false, hr1, hr2, hr4,
        List.map_cons, List.map_nil, Bool.false_eq_true, Bool.true_eq_false,
        if_pos, if_neg, reduceIte] <;>
    norm_num <;>
    omega

theorem encodePixelsLoop_eq (f : PixelFormat)
    (hbpp : f.bits_per_pixel = 8 ∨ f.bits_per_pixel = 16 ∨ f.bits_per_pixel = 32)
    (ps : List Rgb) :
    encodePixelsLoop f ps =
      Except.ok (ps.flatMap fun p =>
        (List.range (f.bits_per_pixel / 8)).map fun j =>
          f.pixelValue p / 256 ^
            (if f.big_endian_flag then f.bits_per_pixel / 8 - 1 - j else j) % 256) := by
  induction ps with
  | nil => rfl
  | cons p ps ih =>
    simp only [encodePixelsLoop]
    rw [writePixelBytes_eq f _ hbpp, ih]
    simp [List.flatMap_cons]

/-- Claim C4 (counterexample): the claim computes the per-pixel value as
the SUM of the shifted channel contributions; the code combines them with
bitwise OR. On the parser-accepted true-colour format whose three
channels all have shift 0, the pixel (1,1,0) encodes to the byte 1 while
the claim's sum formula gives 2. -/
theorem c4_counterexample :
    PixelFormat.encode_pixels fmtOverlap [⟨1, 1, 0⟩] = Except.ok [1] ∧
    pixelValueSpecSum fmtOverlap ⟨1, 1, 0⟩ % 256 = 2 ∧
    fmtOverlap.accepted ∧ fmtOverlap.true_color_flag = true ∧ (1 : Nat) ≠ 2 :=
  ⟨rfl, by decide, ⟨Or.inl rfl, by decide⟩, rfl, by decide⟩

/-- Claim C4 (amended): for every parser-accepted format with the
true-colour flag set whose three channel shifts are all below 32 (a
shift of 32 or more overflows the code's u32 shift: debug builds abort
and release builds mask the shift amount mod 32), `encode_pixels` writes
per pixel the 32-bit value obtained by bitwise-OR (not sum) of the
shifted channel contributions `(channel * max / 255) << shift`
(truncating division, u32 truncation), emitted as bpp/8 bytes in the
configured endianness (byte j holds bits 8*(bpp/8-1-j).. when
big-endian, bits 8*j.. when little-endian); for every format without
true colour it fails writing nothing. -/
theorem c4_amended :
    (∀ (f : PixelFormat) (ps : List Rgb),
      f.true_color_flag = true → f.accepted →
        f.red_shift < 32 ∧ f.green_shift < 32 ∧ f.blue_shift < 32 →
        f.encode_pixels ps =
          Except.ok (ps.flatMap fun p =>
            (List.range (f.bits_per_pixel / 8)).map fun j =>
              (p.r * f.red_max / 255 * 2 ^ f.red_shift % 2 ^ 32 |||
               p.g * f.green_max / 255 * 2 ^ f.green_shift % 2 ^ 32 |||
               p.b * f.blue_max / 255 * 2 ^ f.blue_shift % 2 ^ 32) /
                256 ^ (if f.big_endian_flag then f.bits_per_pixel / 8 - 1 - j else j)
                % 256)) ∧
    (∀ (f : PixelFormat) (ps : List Rgb),
      f.true_color_flag = false →
        f.encode_pixels ps = Except.error "Unimplemented: true color only") := by
  constructor
  · intro f ps htc hacc hsh
    obtain ⟨hr, hg, hb⟩ := hsh
    rw [PixelFormat.encode_pixels, if_neg (by simp [htc])]
    rw [encodePixelsLoop_eq f hacc.1 ps]
    simp only [PixelFormat.pixelValue, channelBits,
      Nat.mod_eq_of_lt hr, Nat.mod_eq_of_lt hg, Nat.mod_eq_of_lt hb]
  · intro f ps htc
    rw [PixelFormat.encode_pixels, if_pos (by simp [htc])]

/-- Claim C4 (witness): the amended theorem at the default RGB888 format
on the pixel (1,2,3) — value 0x010203 written little-endian — and the
failure on a non-true-colour format. -/
theorem c4_witness :
    PixelFormat.encode_pixels PIXEL_FOMRAT_RGB888 [⟨1, 2, 3⟩] = Except.ok [3, 2, 1, 0] ∧
    PixelFormat.encode_pixels fmtNoTrueColor [] =
      Except.error "Unimplemented: true color only" := by
  constructor
  · have h := c4_amended.1 PIXEL_FOMRAT_RGB888 [⟨1, 2, 3⟩] rfl
      ⟨Or.inr (Or.inr rfl), by decide⟩ ⟨by decide, by decide, by decide⟩
    rw [h]; rfl
  · exact c4_amended.2 fmtNoTrueColor [] rfl

theorem rustClamp_zero (v hi : Nat) : rustClamp v 0 hi = min v hi := by
  unfold rustClamp
  split_ifs <;> omega

theorem range_grid {α : Type} (r c : Nat) (g : Nat → Nat → α) :
    ((List.range r).flatMap fun y => (List.range c).map fun x => g x y) =
      (List.range (r * c)).map fun k => g (k % c) (k / c) := by
  induction r with
  | zero => simp
  | succ r ih =>
    rw [List.range_succ, List.flatMap_append, ih, Nat.succ_mul, List.range_add,
      List.map_append, List.flatMap_cons, List.flatMap_nil, List.append_nil,
      List.map_map]
    congr 1
    apply List.map_congr_left
    intro x hx
    have hxc : x < c := List.mem_range.mp hx
    have hc : 0 < c := Nat.lt_of_le_of_lt (Nat.zero_le x) hxc
    have e1 : (r * c + x) % c = x := by
      rw [Nat.add_comm, Nat.add_mul_mod_self_right, Nat.mod_eq_of_lt hxc]
    have e2 : (r * c + x) / c = r := by
      rw [Nat.add_comm, Nat.add_mul_div_right _ _ hc, Nat.div_eq_of_lt hxc,
        Nat.zero_add]
    simp [Function.comp, e1, e2]

theorem tileOrder_eq (W H : Nat) :
    tileOrder W H =
      (List.range (((H + 63) / 64) * ((W + 63) / 64))).map fun k =>
        ((k % ((W + 63) / 64)) * 64, (k / ((W + 63) / 64)) * 64) :=
  range_grid ((H + 63) / 64) ((W + 63) / 64) fun tx ty => (tx * 64, ty * 64)

theorem encodeTiles_ok (f : PixelFormat) (bg : Nat → Nat → Rgb) (W H : Nat)
    (enc : List Rgb → List Nat)
    (henc : ∀ ps, f.encode_compressed_pixels ps = Except.ok (enc ps))
    (ts : List (Nat × Nat)) :
    encodeTiles f bg W H ts =
      Except.ok (ts.flatMap fun t =>
        0 :: enc (tilePixels bg t.1 t.2 (min 64 (W - t.1)) (min 64 (H - t.2)))) := by
  induction ts with
  | nil => rfl
  | cons t ts ih =>
    simp only [encodeTiles, rustClamp_zero, henc, ih]
    simp [List.flatMap_cons]

/-- Claim C1: for a W×H background and any pixel format on which
`encode_compressed_pixels` succeeds (with output function `enc`),
`draw_zrle` feeds the zlib encoder exactly ceil(W/64)*ceil(H/64) tiles in
row-major tile order — tile k starting at x = (k mod cols)*64,
y = (k div cols)*64 with cols = ceil(W/64) — each tile's payload being
the single subencoding byte 0 followed by the encoding of the clipped
tile of width min(64, W-x) and height min(64, H-y). -/
theorem c1_draw_zrle (f : PixelFormat) (bg : Nat → Nat → Rgb) (W H : Nat)
    (enc : List Rgb → List Nat)
    (hW : W ≤ 65535) (hH : H ≤ 65535)
    (henc : ∀ ps, f.encode_compressed_pixels ps = Except.ok (enc ps)) :
    Screen.draw_zrle f bg W H =
      Except.ok ((tileOrder W H).flatMap fun t =>
        0 :: enc (tilePixels bg t.1 t.2 (min 64 (W - t.1)) (min 64 (H - t.2)))) ∧
    (tileOrder W H).length = ((W + 63) / 64) * ((H + 63) / 64) ∧
    (∀ k, k < ((W + 63) / 64) * ((H + 63) / 64) →
      (tileOrder W H)[k]? =
        some ((k % ((W + 63) / 64)) * 64, (k / ((W + 63) / 64)) * 64)) := by
  refine ⟨encodeTiles_ok f bg W H enc henc (tileOrder W H), ?_, ?_⟩
  · rw [tileOrder_eq]
    simp [Nat.mul_comm]
  · intro k hk
    rw [tileOrder_eq, List.getElem?_map,
      List.getElem?_range (Nat.mul_comm ((W + 63) / 64) ((H + 63) / 64) ▸ hk)]
    rfl

/-- Claim C1 (witness): a 1×1 background under the default RGB888 format
produces the single tile payload (0, B, G, R). -/
theorem c1_witness :
    Screen.draw_zrle PIXEL_FOMRAT_RGB888 (fun _ _ => ⟨7, 8, 9⟩) 1 1 =
      Except.ok [0, 9, 8, 7] ∧
    (tileOrder 1 1).length = 1 := by
  have h := c1_draw_zrle PIXEL_FOMRAT_RGB888 (fun _ _ => ⟨7, 8, 9⟩) 1 1
    (fun ps => ps.flatMap fun p => [p.b, p.g, p.r]) (by omega) (by omega)
    (fun ps => rfl)
  refine ⟨?_, ?_⟩
  · rw [h.1]; rfl
  · rw [h.2.1]
